import Mathlib

/-
  Verification of the offline-first incident synchronization core.

  Shallow embedding of:
    - src/db/db.ts                          (IncidentReport data model)
    - src/app/services/incidentSync.ts      (sync engine: syncPendingIncidents,
                                             shouldSkipRetry, computeNextRetryAt,
                                             uploadImageIfNeeded)
    - src/providers/IncidentProvider.tsx    (merge view, realtime INSERT handlers,
                                             fetch backoff)
    - src/app/hooks/useSyncManager.ts       (trigger manager: sync coalescing)
    - src/sw/sw.ts                          (service-worker sync triggers)

  Times (ISO strings / Date.now() in the source) are modelled as Nat epoch
  milliseconds; JS null/undefined optionals as Option.
-/

namespace IncidentApp

/-- Report status enumeration from db.ts
    (`local | pending | syncing | synced | failed`; `local` is a Lean keyword,
    hence `localStatus`). -/
inductive ReportStatus where
  | localStatus
  | pending
  | syncing
  | synced
  | failed
  deriving DecidableEq, Repr

/-- The `location` pair (latitude, longitude) from db.ts.  Coordinates are opaque to
    every claim, modelled as integers. -/
structure GeoLocation where
  latitude : Int
  longitude : Int
  deriving DecidableEq, Repr

/-- The IncidentReport row of the local Dexie store (db.ts). -/
structure IncidentReport where
  id : String
  rtype : String
  severity : Nat
  location : GeoLocation
  timestamp : Nat
  photo : Option String
  status : ReportStatus
  createdAt : Nat
  retryCount : Option Nat
  nextRetryAt : Option Nat
  lastAttemptAt : Option Nat
  deriving DecidableEq, Repr

/-- The UI-facing Incident record (types/incident.ts as used by
    IncidentProvider.tsx). -/
structure Incident where
  id : String
  itype : String
  severity : Nat
  timestamp : Nat
  lat : Int
  lng : Int
  address : String
  description : String
  imageUrl : Option String
  status : String
  reportedBy : String
  deriving DecidableEq, Repr

/-! ## Retry/backoff policy (incidentSync.ts) -/

def BASE_RETRY_DELAY_MS : Nat := 1000

/-- Source constant `5 * 60 * 1000` — 5 minutes cap. -/
def MAX_RETRY_DELAY_MS : Nat := 5 * 60 * 1000

/-- Function `computeNextRetryAt` from incidentSync.ts.  The source computes
    `BASE * 2 ** Math.max(retryCount - 1, 0)` and adds `Date.now()`;
    Nat subtraction is exactly `max (retryCount - 1) 0`.  `wallNow` stands for
    `Date.now()`. -/
def computeNextRetryAt (wallNow : Nat) (retryCount : Nat) : Nat :=
  let expoDelay := BASE_RETRY_DELAY_MS * 2 ^ (retryCount - 1)
  let delay := min expoDelay MAX_RETRY_DELAY_MS
  wallNow + delay

def FETCH_BASE_DELAY_MS : Nat := 1000

def FETCH_MAX_DELAY_MS : Nat := 60000

/-- The remote-fetch backoff of IncidentProvider.tsx:
    `Math.min(FETCH_BASE_DELAY_MS * 2 ** attempt, FETCH_MAX_DELAY_MS)`. -/
def fetchBackoffDelay (attempt : Nat) : Nat :=
  min (FETCH_BASE_DELAY_MS * 2 ^ attempt) FETCH_MAX_DELAY_MS

/-! ## Due-report selection (incidentSync.ts) -/

def SYNCABLE_STATUSES : List ReportStatus :=
  [ReportStatus.localStatus, ReportStatus.pending, ReportStatus.failed]

/-- Function `reportNeedsSync` from incidentSync.ts. -/
def reportNeedsSync (report : IncidentReport) : Bool :=
  SYNCABLE_STATUSES.contains report.status

/-- Function `shouldSkipRetry` from incidentSync.ts.  With times as Nat the
    `Number.isFinite` guard on the parsed date always holds. -/
def shouldSkipRetry (report : IncidentReport) (now : Nat) (force : Bool) : Bool :=
  if force then false
  else
    match report.nextRetryAt with
    | none => false
    | some nextRetryTime => decide (now < nextRetryTime)

/-- The query `db.reports.where("status").anyOf(...SYNCABLE_STATUSES)`. -/
def pendingIncidentsOf (store : List IncidentReport) : List IncidentReport :=
  store.filter reportNeedsSync

/-- The filter `pendingIncidents.filter((report) => !shouldSkipRetry(report, now, force))`. -/
def dueIncidents (pendingIncidents : List IncidentReport) (now : Nat) (force : Bool) :
    List IncidentReport :=
  pendingIncidents.filter (fun report => !shouldSkipRetry report now force)

/-! ## Merge view (IncidentProvider.tsx) -/

def FALLBACK_ADDRESS : String := "Awaiting verified address"

/-- Function `mapReportToIncident` from IncidentProvider.tsx.  `report.timestamp` is a
    required field of the db.ts schema, so `timestamp ?? createdAt` is
    `timestamp`. -/
def mapReportToIncident (report : IncidentReport) (reporterName : Option String) :
    Incident :=
  let timestampSource := report.timestamp
  { id := "FIELD-" ++ report.id
    itype := report.rtype
    severity := report.severity
    timestamp := timestampSource
    lat := report.location.latitude
    lng := report.location.longitude
    address := FALLBACK_ADDRESS
    description := "Field report pending command triage."
    imageUrl := report.photo
    status := if report.status = ReportStatus.synced then "Responding" else "Active"
    reportedBy := reporterName.getD "Field Unit" }

/-- The filter in the merge memo:
    `r.status === 'local' || r.status === 'pending' || r.status === 'failed'`. -/
def isUnsyncedLocal (r : IncidentReport) : Bool :=
  r.status = ReportStatus.localStatus || r.status = ReportStatus.pending
    || r.status = ReportStatus.failed

/-- Stable insertion into a timestamp-descending list: the new element goes
    before the first strictly-older entry (mirrors the comparator
    `(a, b) => b.timestamp - a.timestamp` of a stable `Array.prototype.sort`). -/
def insertDesc (x : Incident) : List Incident → List Incident
  | [] => [x]
  | y :: ys =>
    if y.timestamp < x.timestamp then x :: y :: ys else y :: insertDesc x ys

/-- Stable sort by timestamp descending
    (`all.sort((a, b) => b.timestamp.getTime() - a.timestamp.getTime())`). -/
def sortByTimestampDesc (l : List Incident) : List Incident :=
  l.foldl (fun acc x => insertDesc x acc) []

/-- The merge memo of IncidentProvider.tsx: mapped unsynced local reports
    unioned with the remote rows, sorted by timestamp descending. -/
def mergedIncidents (remoteIncidents : List Incident) (localReports : List IncidentReport)
    (userName : Option String) : List Incident :=
  let merged := remoteIncidents
  let unsyncedLocals := localReports.filter isUnsyncedLocal
  let mappedLocals := unsyncedLocals.map (fun r => mapReportToIncident r userName)
  let all := mappedLocals ++ merged
  sortByTimestampDesc all

/-- Timestamp-descending sortedness. -/
def SortedByTsDesc (l : List Incident) : Prop :=
  l.Pairwise (fun a b => b.timestamp ≤ a.timestamp)

/-! ### Sort lemmas -/

theorem insertDesc_perm (x : Incident) (l : List Incident) :
    (insertDesc x l).Perm (x :: l) := by
  induction l with
  | nil => simp [insertDesc]
  | cons y ys ih =>
    by_cases h : y.timestamp < x.timestamp
    · simp [insertDesc, h]
    · simp only [insertDesc, if_neg h]
      exact ((ih.cons y).trans (List.Perm.swap x y ys))

theorem insertDesc_sorted (x : Incident) (l : List Incident)
    (hl : SortedByTsDesc l) : SortedByTsDesc (insertDesc x l) := by
  induction l with
  | nil => simp [insertDesc, SortedByTsDesc]
  | cons y ys ih =>
    rcases hl with _ | ⟨hy, hys⟩
    by_cases h : y.timestamp < x.timestamp
    · simp only [insertDesc, if_pos h]
      refine List.Pairwise.cons ?_ (List.Pairwise.cons hy hys)
      intro z hz
      rcases List.mem_cons.mp hz with hz | hz
      · subst hz; omega
      · have := hy z hz
        omega
    · simp only [insertDesc, if_neg h]
      refine List.Pairwise.cons ?_ (ih hys)
      intro z hz
      have hmem : z ∈ x :: ys := (insertDesc_perm x ys).mem_iff.mp hz
      rcases List.mem_cons.mp hmem with hz1 | hz2
      · subst hz1; omega
      · exact hy z hz2

theorem sortByTimestampDesc_perm_aux (l acc : List Incident) :
    (l.foldl (fun acc x => insertDesc x acc) acc).Perm (acc ++ l) := by
  induction l generalizing acc with
  | nil => simp
  | cons x xs ih =>
    simp only [List.foldl_cons]
    have h1 := ih (insertDesc x acc)
    have h2 : (insertDesc x acc ++ xs).Perm (acc ++ x :: xs) :=
      ((insertDesc_perm x acc).append_right xs).trans List.perm_middle.symm
    exact h1.trans h2

theorem sortByTimestampDesc_perm (l : List Incident) :
    (sortByTimestampDesc l).Perm l := by
  simpa using sortByTimestampDesc_perm_aux l []

theorem sortByTimestampDesc_sorted_aux (l acc : List Incident)
    (hacc : SortedByTsDesc acc) :
    SortedByTsDesc (l.foldl (fun acc x => insertDesc x acc) acc) := by
  induction l generalizing acc with
  | nil => simpa using hacc
  | cons x xs ih =>
    simp only [List.foldl_cons]
    exact ih (insertDesc x acc) (insertDesc_sorted x acc hacc)

theorem sortByTimestampDesc_sorted (l : List Incident) :
    SortedByTsDesc (sortByTimestampDesc l) :=
  sortByTimestampDesc_sorted_aux l [] (by simp [SortedByTsDesc])

/-! ## Realtime INSERT handlers (IncidentProvider.tsx) -/

/-- First subscription handler (the deduplicating one): if a row with the
    incoming id is already present, replace it in place, else prepend. -/
def handleInsertDedup (incoming : Incident) (prev : List Incident) : List Incident :=
  match prev.find? (fun item => item.id = incoming.id) with
  | some _ => prev.map (fun item => if item.id = incoming.id then incoming else item)
  | none => incoming :: prev

/-- Second subscription handler: `setRemoteIncidents((prev) => [newIncident, ...prev])`
    — an unconditional prepend. -/
def handleInsertPrepend (incoming : Incident) (prev : List Incident) : List Incident :=
  incoming :: prev

/-! ## Sync engine (incidentSync.ts) -/

/-- Errors a sync attempt can raise: a DOMException with name AbortError, or
    any other thrown error carrying a message. -/
inductive SyncError where
  | abortError (msg : String)
  | generic (msg : String)
  deriving DecidableEq, Repr

/-- Outcome of the blob-store upload (`supabase.storage...upload` together with
    the `fetch` of the data URL), as seen by one attempt.  `ok` carries the
    resulting public URL (`publicUrl ?? null`). -/
inductive UploadOutcome where
  | ok (publicUrl : Option String)
  | err (msg : String)
  | abortErr (msg : String)
  deriving DecidableEq, Repr

/-- Outcome of `supabase.from("incidents").insert([payload])`: either no
    error, or an error object with a `code`. -/
inductive InsertOutcome where
  | ok
  | err (code : String) (msg : String)
  deriving DecidableEq, Repr

/-- The nondeterministic inputs one loop iteration reads from the outside
    world: `new Date()` at the top of the body (`attemptAt`), `Date.now()`
    inside `computeNextRetryAt` (`wallNow`), and the two remote outcomes. -/
structure ReportEnv where
  attemptAt : Nat
  wallNow : Nat
  upload : UploadOutcome
  insert : InsertOutcome
  deriving Repr

/-- Executable character-list rendering of `photo.startsWith("data:")` —
    String.startsWith (the built-in does not reduce in the kernel). -/
def strStartsWith (s pre : String) : Bool :=
  pre.data.isPrefixOf s.data

/-- Function `uploadImageIfNeeded` from incidentSync.ts: photos that are not inline
    `data:` URLs are returned unchanged; inline photos go through the blob
    store, whose outcome is `env`-supplied. -/
def uploadImageIfNeeded (report : IncidentReport) (storageUpload : UploadOutcome) :
    Except SyncError (Option String) :=
  match report.photo with
  | none => Except.ok none
  | some photo =>
    if strStartsWith photo "data:" then
      match storageUpload with
      | UploadOutcome.ok url => Except.ok url
      | UploadOutcome.err m => Except.error (SyncError.generic m)
      | UploadOutcome.abortErr m => Except.error (SyncError.abortError m)
    else Except.ok (some photo)

/-- The try-block of one loop iteration: upload, then insert; an insert error
    whose code is not "23505" (duplicate key) is thrown, a 23505 error is
    swallowed.  Returns the final image URL on the success path. -/
def attemptOutcome (incident : IncidentReport) (env : ReportEnv) :
    Except SyncError (Option String) :=
  match uploadImageIfNeeded incident env.upload with
  | Except.error e => Except.error e
  | Except.ok finalImageUrl =>
    match env.insert with
    | InsertOutcome.ok => Except.ok finalImageUrl
    | InsertOutcome.err code msg =>
      if code = "23505" then Except.ok finalImageUrl
      else Except.error (SyncError.generic msg)

/-- The update `db.reports.update(incident.id, ...)` marking the row pending and
    stamping lastAttemptAt. -/
def markPending (attemptAt : Nat) (r : IncidentReport) : IncidentReport :=
  { r with status := ReportStatus.pending, lastAttemptAt := some attemptAt }

/-- The success update:
    `{ status: "synced", photo: finalImageUrl ?? incident.photo, retryCount: 0,
       nextRetryAt: null, lastAttemptAt }`.  `incident` is the snapshot the
    loop iterates over. -/
def markSynced (incident : IncidentReport) (finalImageUrl : Option String)
    (attemptAt : Nat) (r : IncidentReport) : IncidentReport :=
  { r with
    status := ReportStatus.synced
    photo := (finalImageUrl.orElse (fun _ => incident.photo))
    retryCount := some 0
    nextRetryAt := none
    lastAttemptAt := some attemptAt }

/-- The failure update: `retryCount = (incident.retryCount ?? 0) + 1`,
    `{ status: "failed", retryCount, nextRetryAt: computeNextRetryAt(retryCount),
       lastAttemptAt }`. -/
def markFailed (incident : IncidentReport) (env : ReportEnv) (r : IncidentReport) :
    IncidentReport :=
  let retryCount := incident.retryCount.getD 0 + 1
  { r with
    status := ReportStatus.failed
    retryCount := some retryCount
    nextRetryAt := some (computeNextRetryAt env.wallNow retryCount)
    lastAttemptAt := some env.attemptAt }

/-- The update `db.reports.update(id, fields)`: apply `f` to the row whose primary key is
    `id`. -/
def updateById (store : List IncidentReport) (id : String)
    (f : IncidentReport → IncidentReport) : List IncidentReport :=
  store.map (fun r => if r.id = id then f r else r)

/-- Look a row up by primary key. -/
def findById (store : List IncidentReport) (id : String) : Option IncidentReport :=
  store.find? (fun r => r.id = id)

/-- Progress events of incidentSync.ts. -/
inductive SyncProgressEvent where
  | syncedEvent (id : String)
  | skippedEvent (id : String) (reason : String)
  | errorEvent (id : String) (error : String)
  deriving DecidableEq, Repr

/-- Remote calls one iteration performs: the insert, plus the blob upload when
    the photo is an inline `data:` URL (on upload failure the insert is never
    reached). -/
def attemptRemoteCalls (incident : IncidentReport) (env : ReportEnv) : Nat :=
  match incident.photo with
  | none => 1
  | some photo =>
    if strStartsWith photo "data:" then
      match env.upload with
      | UploadOutcome.ok _ => 2
      | _ => 1
    else 1

/-- State threaded through a sync pass: the store, the emitted progress
    events, the `completed` counter, and a count of remote calls made. -/
structure PassState where
  store : List IncidentReport
  events : List SyncProgressEvent
  completed : Nat
  remoteCalls : Nat
  deriving Repr

/-- One iteration of the for-loop body (after the abort check): mark the row
    pending, run the attempt, then apply the success or failure update.  An
    AbortError raised inside the attempt is rethrown. -/
def processOne (incident : IncidentReport) (e : ReportEnv) (st : PassState) :
    PassState × Option SyncError :=
  let st1 : PassState :=
    { st with
      store := updateById st.store incident.id (markPending e.attemptAt)
      remoteCalls := st.remoteCalls + attemptRemoteCalls incident e }
  match attemptOutcome incident e with
  | Except.ok finalImageUrl =>
    ({ st1 with
       store := updateById st1.store incident.id
         (markSynced incident finalImageUrl e.attemptAt)
       completed := st1.completed + 1
       events := st1.events ++ [SyncProgressEvent.syncedEvent incident.id] }, none)
  | Except.error (SyncError.abortError m) => (st1, some (SyncError.abortError m))
  | Except.error (SyncError.generic msg) =>
    ({ st1 with
       store := updateById st1.store incident.id (markFailed incident e)
       events := st1.events ++ [SyncProgressEvent.errorEvent incident.id msg] }, none)

/-- Shift an index-dependent environment by `n` positions. -/
def shiftFun {α : Type} (n : Nat) (f : Nat → α) : Nat → α :=
  fun i => f (i + n)

/-- The for-loop of `syncPendingIncidents`: before each report the abort
    signal is checked (`if (signal?.aborted) throw new DOMException("Sync
    aborted", "AbortError")`), then the report is processed; a per-report
    failure does not stop the loop, an AbortError does. -/
def processLoop (signal : Nat → Bool) (env : Nat → ReportEnv) :
    List IncidentReport → PassState → PassState × Option SyncError
  | [], st => (st, none)
  | incident :: rest, st =>
    if signal 0 then (st, some (SyncError.abortError "Sync aborted"))
    else
      let step := processOne incident (env 0) st
      match step.2 with
      | some e => (step.1, some e)
      | none => processLoop (shiftFun 1 signal) (shiftFun 1 env) rest step.1

/-- The value `syncPendingIncidents` resolves with.  On the empty-due early
    return the source object literal has no `completed` property, modelled as
    `none`. -/
structure SyncResult where
  attempted : Nat
  completed : Option Nat
  totalPending : Nat
  deriving DecidableEq, Repr

/-- A whole run of `syncPendingIncidents`: final store, emitted events,
    number of remote calls, and the resolution or rejection. -/
structure SyncRun where
  store : List IncidentReport
  events : List SyncProgressEvent
  remoteCalls : Nat
  result : Except SyncError SyncResult
  deriving Repr

/-- Function `syncPendingIncidents` from incidentSync.ts over a store snapshot.
    `signal i` is the abort-signal state observed before report number `i` of
    the due list; `env i` the outside-world outcomes of its attempt. -/
def syncPendingIncidents (store : List IncidentReport) (now : Nat) (force : Bool)
    (signal : Nat → Bool) (env : Nat → ReportEnv) : SyncRun :=
  let pendingIncidents := pendingIncidentsOf store
  let due := dueIncidents pendingIncidents now force
  if due.length = 0 then
    { store := store, events := [], remoteCalls := 0,
      result := Except.ok
        { attempted := 0, completed := none, totalPending := pendingIncidents.length } }
  else
    let outcome := processLoop signal env due
      { store := store, events := [], completed := 0, remoteCalls := 0 }
    { store := outcome.1.store
      events := outcome.1.events
      remoteCalls := outcome.1.remoteCalls
      result :=
        match outcome.2 with
        | some e => Except.error e
        | none => Except.ok
            { attempted := due.length, completed := some outcome.1.completed,
              totalPending := pendingIncidents.length } }

/-! ## Trigger manager (useSyncManager.ts) -/

/-- What one call of `sync` in useSyncManager.ts does: register a deferred
    background-sync request (offline, not forced), drop the trigger (already
    syncing), or start a pass. -/
inductive SyncAction where
  | deferRegister
  | dropped
  | startPass
  deriving DecidableEq, Repr

/-- The guard sequence of `sync`:
    `if (!navigator.onLine && !force) { await registerBackgroundSync(); return; }
     if (isSyncing) { return; }` — otherwise a pass starts. -/
def syncCallAction (onLine force isSyncing : Bool) : SyncAction :=
  if !onLine && !force then SyncAction.deferRegister
  else if isSyncing then SyncAction.dropped
  else SyncAction.startPass

/-- Observable trigger-manager state: the `isSyncing` flag, how many passes
    are currently executing, and counters for started passes and deferred
    background-sync registrations. -/
structure TriggerState where
  isSyncing : Bool
  inFlight : Nat
  startedPasses : Nat
  deferredRequests : Nat
  deriving DecidableEq, Repr

def initialTriggerState : TriggerState :=
  { isSyncing := false, inFlight := 0, startedPasses := 0, deferredRequests := 0 }

/-- Events the trigger manager reacts to: a `sync({force})` call (from the
    online/visibility/interval/mutation triggers or the UI) under a given
    connectivity, and the `finally { setIsSyncing(false) }` of a pass that
    finished. -/
inductive TriggerEvent where
  | callSync (onLine force : Bool)
  | passEnd
  deriving DecidableEq, Repr

/-- Transition of the trigger manager.  A pass starts only via
    `SyncAction.startPass`, which sets `isSyncing`; `passEnd` clears it. -/
def triggerStep (st : TriggerState) : TriggerEvent → TriggerState
  | TriggerEvent.callSync onLine force =>
    match syncCallAction onLine force st.isSyncing with
    | SyncAction.deferRegister => { st with deferredRequests := st.deferredRequests + 1 }
    | SyncAction.dropped => st
    | SyncAction.startPass =>
      { st with isSyncing := true, inFlight := st.inFlight + 1,
                startedPasses := st.startedPasses + 1 }
  | TriggerEvent.passEnd =>
    if st.isSyncing then { st with isSyncing := false, inFlight := st.inFlight - 1 }
    else st

/-- Run the trigger manager over a sequence of events from process start. -/
def runTrigger (events : List TriggerEvent) : TriggerState :=
  events.foldl triggerStep initialTriggerState

/-! ## Service-worker triggers (src/sw/sw.ts) -/

/-- Modelled from the spec: the tag constants live in src/sw/syncTags.ts,
    which is not among the source files; only their distinctness and use in
    the listeners matter. -/
def INCIDENT_SYNC_TAG : String := "incident-sync"

/-- Modelled from the spec: see `INCIDENT_SYNC_TAG`. -/
def INCIDENT_PERIODIC_SYNC_TAG : String := "incident-periodic-sync"

/-- A service-worker invocation of the sync engine: the options
    `runIncidentSync` passes to `syncPendingIncidents` that the claims are
    about. -/
structure SyncInvocation where
  force : Bool
  source : String
  deriving DecidableEq, Repr

/-- Function `runIncidentSync(source)` from sw.ts always calls
    `syncPendingIncidents({ supabase, force: true, onProgress })`. -/
def runIncidentSync (source : String) : SyncInvocation :=
  { force := true, source := source }

/-- The `"sync"` event listener: runs `runIncidentSync("background-sync")`
    when the tag matches `INCIDENT_SYNC_TAG`. -/
def handleSyncEvent (tag : String) : Option SyncInvocation :=
  if tag = INCIDENT_SYNC_TAG then some (runIncidentSync "background-sync") else none

/-- The `"periodicsync"` event listener. -/
def handlePeriodicSyncEvent (tag : String) : Option SyncInvocation :=
  if tag = INCIDENT_PERIODIC_SYNC_TAG then some (runIncidentSync "periodic-sync")
  else none

/-- The `"message"` event listener: reacts to `trigger-incident-sync`
    messages, defaulting the source to "message". -/
def handleMessageEvent (msgType : String) (source : Option String) :
    Option SyncInvocation :=
  if msgType = "trigger-incident-sync" then some (runIncidentSync (source.getD "message"))
  else none

/-! ## Store bookkeeping lemmas -/

theorem markPending_id (t : Nat) (r : IncidentReport) : (markPending t r).id = r.id := rfl

theorem markSynced_id (incident : IncidentReport) (u : Option String) (t : Nat)
    (r : IncidentReport) : (markSynced incident u t r).id = r.id := rfl

theorem markFailed_id (incident : IncidentReport) (e : ReportEnv)
    (r : IncidentReport) : (markFailed incident e r).id = r.id := rfl

theorem findById_updateById_ne (store : List IncidentReport) (id1 id2 : String)
    (f : IncidentReport → IncidentReport) (hf : ∀ r, (f r).id = r.id)
    (hne : id1 ≠ id2) :
    findById (updateById store id2 f) id1 = findById store id1 := by
  induction store with
  | nil => rfl
  | cons r rest ih =>
    by_cases h1 : r.id = id1
    · have hne2 : ¬ r.id = id2 := by rw [h1]; exact hne
      simp only [updateById, List.map_cons, if_neg hne2, findById]
      rw [List.find?_cons_of_pos _ (by simp [h1]), List.find?_cons_of_pos _ (by simp [h1])]
    · by_cases h2 : r.id = id2
      · have hfr : (f r).id = r.id := hf r
        simp only [updateById, List.map_cons, if_pos h2, findById] at ih ⊢
        rw [List.find?_cons_of_neg, List.find?_cons_of_neg]
        · exact ih
        · simp [h1]
        · simp [hfr, h1]
      · simp only [updateById, List.map_cons, if_neg h2, findById] at ih ⊢
        rw [List.find?_cons_of_neg, List.find?_cons_of_neg]
        · exact ih
        · simp [h1]
        · simp [h1]

theorem findById_updateById_self (store : List IncidentReport) (id : String)
    (f : IncidentReport → IncidentReport) (hf : ∀ r, (f r).id = r.id)
    (r : IncidentReport) (h : findById store id = some r) :
    findById (updateById store id f) id = some (f r) := by
  induction store with
  | nil => simp [findById] at h
  | cons a rest ih =>
    by_cases ha : a.id = id
    · have hfa : (f a).id = a.id := hf a
      have h1 : findById (a :: rest) id = some a := by
        simp only [findById]
        exact List.find?_cons_of_pos _ (by simp [ha])
      rw [h1] at h
      cases h
      simp only [updateById, List.map_cons, if_pos ha, findById]
      exact List.find?_cons_of_pos _ (by simp [hfa, ha])
    · have h1 : findById (a :: rest) id = findById rest id := by
        simp only [findById]
        rw [List.find?_cons_of_neg _ (by simp [ha])]
      rw [h1] at h
      simp only [updateById, List.map_cons, if_neg ha, findById]
      rw [List.find?_cons_of_neg _ (by simp [ha])]
      exact ih h

theorem findById_eq_of_mem_nodup (store : List IncidentReport)
    (hnodup : (store.map (fun r => r.id)).Nodup) (r : IncidentReport)
    (hr : r ∈ store) : findById store r.id = some r := by
  induction store with
  | nil => simp at hr
  | cons a rest ih =>
    simp only [List.map_cons, List.nodup_cons] at hnodup
    rcases List.mem_cons.mp hr with h | h
    · subst h
      simp only [findById]
      exact List.find?_cons_of_pos _ (by simp)
    · have ha : ¬ a.id = r.id := by
        intro heq
        exact hnodup.1 (heq ▸ List.mem_map_of_mem (fun x => x.id) h)
      simp only [findById]
      rw [List.find?_cons_of_neg _ (by simpa using ha)]
      exact ih hnodup.2 h

/-! ## Loop lemmas -/

theorem attemptOutcome_not_abort (incident : IncidentReport) (e : ReportEnv)
    (h : ∀ m, e.upload ≠ UploadOutcome.abortErr m) :
    ∀ m, attemptOutcome incident e ≠ Except.error (SyncError.abortError m) := by
  intro m
  unfold attemptOutcome uploadImageIfNeeded
  cases hp : incident.photo with
  | none =>
    cases e.insert with
    | ok => simp
    | err code msg =>
      by_cases hc : code = "23505" <;> simp [hc]
  | some photo =>
    by_cases hd : strStartsWith photo "data:"
    · cases hu : e.upload with
      | ok url =>
        cases e.insert with
        | ok => simp [hd]
        | err code msg => by_cases hc : code = "23505" <;> simp [hd, hc]
      | err m2 => simp [hd]
      | abortErr m2 => exact absurd hu (h m2)
    · cases e.insert with
      | ok => simp [hd]
      | err code msg => by_cases hc : code = "23505" <;> simp [hd, hc]

theorem processOne_snd_none (incident : IncidentReport) (e : ReportEnv)
    (st : PassState) (h : ∀ m, e.upload ≠ UploadOutcome.abortErr m) :
    (processOne incident e st).2 = none := by
  unfold processOne
  cases ha : attemptOutcome incident e with
  | ok u => simp
  | error err =>
    cases err with
    | abortError m => exact absurd ha (attemptOutcome_not_abort incident e h m)
    | generic m => simp

theorem processOne_frame (incident : IncidentReport) (e : ReportEnv)
    (st : PassState) (id : String) (hne : id ≠ incident.id) :
    findById (processOne incident e st).1.store id = findById st.store id := by
  unfold processOne
  cases attemptOutcome incident e with
  | ok u =>
    simp only
    rw [findById_updateById_ne _ _ _ _ (fun r => markSynced_id incident u e.attemptAt r) hne,
      findById_updateById_ne _ _ _ _ (fun r => markPending_id e.attemptAt r) hne]
  | error err =>
    cases err with
    | abortError m =>
      simp only
      rw [findById_updateById_ne _ _ _ _ (fun r => markPending_id e.attemptAt r) hne]
    | generic m =>
      simp only
      rw [findById_updateById_ne _ _ _ _ (fun r => markFailed_id incident e r) hne,
        findById_updateById_ne _ _ _ _ (fun r => markPending_id e.attemptAt r) hne]

theorem processOne_events (incident : IncidentReport) (e : ReportEnv)
    (st : PassState) :
    ∃ tail, (processOne incident e st).1.events = st.events ++ tail := by
  unfold processOne
  cases attemptOutcome incident e with
  | ok u => exact ⟨[SyncProgressEvent.syncedEvent incident.id], rfl⟩
  | error err =>
    cases err with
    | abortError m => exact ⟨[], by simp⟩
    | generic m => exact ⟨[SyncProgressEvent.errorEvent incident.id m], rfl⟩

theorem processLoop_cons_abort {signal : Nat → Bool} {env : Nat → ReportEnv}
    {x : IncidentReport} {rest : List IncidentReport} {st : PassState}
    (h : signal 0 = true) :
    processLoop signal env (x :: rest) st
      = (st, some (SyncError.abortError "Sync aborted")) := by
  unfold processLoop
  rw [h]
  simp

theorem processLoop_cons_err {signal : Nat → Bool} {env : Nat → ReportEnv}
    {x : IncidentReport} {rest : List IncidentReport} {st : PassState}
    {e : SyncError} (h : signal 0 = false)
    (hstep : (processOne x (env 0) st).2 = some e) :
    processLoop signal env (x :: rest) st = ((processOne x (env 0) st).1, some e) := by
  unfold processLoop
  rw [h]
  simp only [Bool.false_eq_true, if_false]
  rw [hstep]

theorem processLoop_cons_ok {signal : Nat → Bool} {env : Nat → ReportEnv}
    {x : IncidentReport} {rest : List IncidentReport} {st : PassState}
    (h : signal 0 = false) (hstep : (processOne x (env 0) st).2 = none) :
    processLoop signal env (x :: rest) st
      = processLoop (shiftFun 1 signal) (shiftFun 1 env) rest
          (processOne x (env 0) st).1 := by
  conv_lhs => unfold processLoop
  rw [h]
  simp only [Bool.false_eq_true, if_false]
  rw [hstep]

theorem processLoop_frame (xs : List IncidentReport) (signal : Nat → Bool)
    (env : Nat → ReportEnv) (st : PassState) (id : String)
    (hid : id ∉ xs.map (fun r => r.id)) :
    findById (processLoop signal env xs st).1.store id = findById st.store id := by
  induction xs generalizing signal env st with
  | nil => rfl
  | cons x rest ih =>
    simp only [List.map_cons, List.mem_cons, not_or] at hid
    unfold processLoop
    by_cases hs : signal 0
    · simp [hs]
    · simp only [hs, if_false, Bool.false_eq_true]
      cases hstep : (processOne x (env 0) st).2 with
      | some e =>
        simp only
        exact processOne_frame x (env 0) st id hid.1
      | none =>
        simp only
        rw [ih (shiftFun 1 signal) (shiftFun 1 env) _ hid.2]
        exact processOne_frame x (env 0) st id hid.1

theorem processLoop_no_abort (xs : List IncidentReport) (signal : Nat → Bool)
    (env : Nat → ReportEnv) (st : PassState)
    (hsig : ∀ i, i < xs.length → signal i = false)
    (hup : ∀ i, i < xs.length → ∀ m, (env i).upload ≠ UploadOutcome.abortErr m) :
    (processLoop signal env xs st).2 = none := by
  induction xs generalizing signal env st with
  | nil => rfl
  | cons x rest ih =>
    unfold processLoop
    have hs0 : signal 0 = false := hsig 0 (by simp)
    simp only [hs0, if_false, Bool.false_eq_true]
    have hstep : (processOne x (env 0) st).2 = none :=
      processOne_snd_none x (env 0) st (hup 0 (by simp))
    rw [hstep]
    simp only
    exact ih (shiftFun 1 signal) (shiftFun 1 env) _
      (fun i hi => hsig (i + 1) (by simpa using Nat.succ_lt_succ hi))
      (fun i hi => hup (i + 1) (by simpa using Nat.succ_lt_succ hi))

theorem processLoop_events (xs : List IncidentReport) (signal : Nat → Bool)
    (env : Nat → ReportEnv) (st : PassState) :
    ∃ tail, (processLoop signal env xs st).1.events = st.events ++ tail := by
  induction xs generalizing signal env st with
  | nil => exact ⟨[], by simp [processLoop]⟩
  | cons x rest ih =>
    unfold processLoop
    by_cases hs : signal 0
    · exact ⟨[], by simp [hs]⟩
    · simp only [hs, if_false, Bool.false_eq_true]
      obtain ⟨t1, ht1⟩ := processOne_events x (env 0) st
      cases hstep : (processOne x (env 0) st).2 with
      | some e => exact ⟨t1, by simpa using ht1⟩
      | none =>
        obtain ⟨t2, ht2⟩ := ih (shiftFun 1 signal) (shiftFun 1 env)
          (processOne x (env 0) st).1
        exact ⟨t1 ++ t2, by simp only; rw [ht2, ht1, List.append_assoc]⟩

theorem processLoop_append (xs ys : List IncidentReport) (signal : Nat → Bool)
    (env : Nat → ReportEnv) (st : PassState) :
    processLoop signal env (xs ++ ys) st =
      match (processLoop signal env xs st).2 with
      | some e => ((processLoop signal env xs st).1, some e)
      | none =>
        processLoop (shiftFun xs.length signal) (shiftFun xs.length env) ys
          (processLoop signal env xs st).1 := by
  induction xs generalizing signal env st with
  | nil => rfl
  | cons x rest ih =>
    by_cases hs : signal 0
    · rw [show (x :: rest) ++ ys = x :: (rest ++ ys) from rfl,
        processLoop_cons_abort hs, processLoop_cons_abort hs]
    · have hs2 : signal 0 = false := by
        cases h : signal 0
        · rfl
        · exact absurd h hs
      cases hstep : (processOne x (env 0) st).2 with
      | some e =>
        rw [show (x :: rest) ++ ys = x :: (rest ++ ys) from rfl,
          processLoop_cons_err hs2 hstep, processLoop_cons_err hs2 hstep]
      | none =>
        rw [show (x :: rest) ++ ys = x :: (rest ++ ys) from rfl,
          processLoop_cons_ok hs2 hstep, processLoop_cons_ok hs2 hstep,
          ih (shiftFun 1 signal) (shiftFun 1 env) (processOne x (env 0) st).1]
        rfl

/-! ## Concrete fixtures -/

/-- Remote row R1 of the spec's merge example (ts = 10). -/
def exR1 : Incident :=
  { id := "R1", itype := "Flood", severity := 3, timestamp := 10, lat := 0, lng := 0,
    address := FALLBACK_ADDRESS, description := "Command Center Report",
    imageUrl := none, status := "Active", reportedBy := "Command Center" }

/-- Local pending report L1 of the spec's merge example (ts = 20). -/
def exL1 : IncidentReport :=
  { id := "L1", rtype := "Flood", severity := 2, location := { latitude := 0, longitude := 0 },
    timestamp := 20, photo := none, status := ReportStatus.pending, createdAt := 20,
    retryCount := some 0, nextRetryAt := none, lastAttemptAt := none }

/-- Local synced report L2 of the spec's merge example (ts = 5). -/
def exL2 : IncidentReport :=
  { id := "L2", rtype := "Flood", severity := 2, location := { latitude := 0, longitude := 0 },
    timestamp := 5, photo := none, status := ReportStatus.synced, createdAt := 5,
    retryCount := some 0, nextRetryAt := none, lastAttemptAt := none }

/-- A failed report whose `nextRetryAt` (1000) still lies in the future at
    `now = 0`. -/
def exFailedFuture : IncidentReport :=
  { id := "F1", rtype := "Flood", severity := 2, location := { latitude := 0, longitude := 0 },
    timestamp := 0, photo := none, status := ReportStatus.failed, createdAt := 0,
    retryCount := some 1, nextRetryAt := some 1000, lastAttemptAt := some 0 }

/-! ## Claim theorems -/

/-- C1: the merged incident feed is a pure, deterministic function of the
    remote rows and the local reports; it is a permutation of the remote rows
    unioned with the mapped local reports whose status is in
    {local, pending, failed} (synced excluded), sorted by timestamp
    descending; on the spec's example (remote [R1 ts10], local
    [L1 pending ts20, L2 synced ts5]) the feed is [L1, R1] with L2 excluded. -/
theorem merged_feed_spec :
    (∀ remote localReports user,
        (mergedIncidents remote localReports user).Perm
          (((localReports.filter isUnsyncedLocal).map
              (fun r => mapReportToIncident r user)) ++ remote)
        ∧ SortedByTsDesc (mergedIncidents remote localReports user))
    ∧ mergedIncidents [exR1] [exL1, exL2] none
        = [mapReportToIncident exL1 none, exR1] := by
  constructor
  · intro remote localReports user
    exact ⟨sortByTimestampDesc_perm _, sortByTimestampDesc_sorted _⟩
  · rfl

/-- C3: for every retry count n ≥ 1 the retry policy computes
    nextRetryAt(n) = now + min(1000 * 2^(n-1), 300000) ms, and the
    remote-fetch retry loop waits min(1000 * 2^attempt, 60000) ms; both are
    deterministic functions of the attempt index. -/
theorem retry_backoff_policy :
    (∀ wallNow n, 1 ≤ n →
        computeNextRetryAt wallNow n = wallNow + min (1000 * 2 ^ (n - 1)) 300000)
    ∧ ∀ attempt, fetchBackoffDelay attempt = min (1000 * 2 ^ attempt) 60000 := by
  constructor
  · intro wallNow n _h
    rfl
  · intro attempt
    rfl

/-- Witness for C3 at wallNow = 5000, n = 3. -/
theorem retry_backoff_policy_witness :
    computeNextRetryAt 5000 3 = 5000 + min (1000 * 2 ^ (3 - 1)) 300000 :=
  retry_backoff_policy.1 5000 3 (by decide)

theorem shouldSkipRetry_eq_false_iff (r : IncidentReport) (now : Nat) (force : Bool) :
    shouldSkipRetry r now force = false ↔
      (force = true ∨ r.nextRetryAt = none
        ∨ ∃ t, r.nextRetryAt = some t ∧ t ≤ now) := by
  unfold shouldSkipRetry
  cases force with
  | true => simp
  | false =>
    cases hn : r.nextRetryAt with
    | none => simp
    | some t =>
      simp only [Bool.false_eq_true, if_false, decide_eq_false_iff_not, Nat.not_lt,
        false_or, Option.some.injEq]
      constructor
      · intro h
        exact Or.inr ⟨t, rfl, h⟩
      · rintro (h | ⟨t2, ht2, hle⟩)
        · exact absurd h (by simp)
        · cases ht2
          exact hle

/-- C8: an unsynced report r is in the due set of a sync pass if and only if
    force = true, or r.nextRetryAt is unset, or r.nextRetryAt ≤ now; in
    particular a failed report with a future nextRetryAt is excluded unless
    forced. -/
theorem due_set_characterization (store : List IncidentReport) (now : Nat)
    (force : Bool) (r : IncidentReport) (hr : r ∈ pendingIncidentsOf store) :
    r ∈ dueIncidents (pendingIncidentsOf store) now force
      ↔ (force = true ∨ r.nextRetryAt = none
          ∨ ∃ t, r.nextRetryAt = some t ∧ t ≤ now) := by
  unfold dueIncidents
  rw [List.mem_filter]
  rw [← shouldSkipRetry_eq_false_iff r now force]
  constructor
  · rintro ⟨-, h⟩
    simpa using h
  · intro h
    exact ⟨hr, by simpa using h⟩

/-- Witness for C8: the failed report with nextRetryAt = 1000 is not due at
    now = 0 without force. -/
theorem due_set_characterization_witness :
    exFailedFuture ∉ dueIncidents (pendingIncidentsOf [exFailedFuture]) 0 false := by
  intro hmem
  have h := (due_set_characterization [exFailedFuture] 0 false exFailedFuture
    (by decide)).mp hmem
  rcases h with h | h | ⟨t, ht, hle⟩
  · exact absurd h (by decide)
  · exact absurd h (by simp [exFailedFuture] at h)
  · rw [show exFailedFuture.nextRetryAt = some 1000 from rfl] at ht
    cases ht
    omega

/-- An incident with id "X" already present in the remote list. -/
def exIncX1 : Incident :=
  { id := "X", itype := "Flood", severity := 1, timestamp := 1, lat := 0, lng := 0,
    address := FALLBACK_ADDRESS, description := "first version", imageUrl := none,
    status := "Active", reportedBy := "Command Center" }

/-- A later realtime payload carrying the same id "X". -/
def exIncX2 : Incident :=
  { id := "X", itype := "Flood", severity := 1, timestamp := 2, lat := 0, lng := 0,
    address := FALLBACK_ADDRESS, description := "second version", imageUrl := none,
    status := "Active", reportedBy := "Realtime Update" }

/-- C7 counterexample: the second subscription handler
    (`setRemoteIncidents((prev) => [newIncident, ...prev])`) prepends
    unconditionally, so delivering a row with id "X" while an entry with id
    "X" is already present leaves two entries with that id. -/
theorem prepend_handler_duplicates :
    ¬ ((handleInsertPrepend exIncX2 [exIncX1]).countP (fun i => i.id = "X") ≤ 1) := by
  decide

/-- C7 (amended): the first subscription handler is duplicate-free — if the
    incoming id is already present it replaces that entry in place, otherwise
    it prepends — so it preserves uniqueness of ids; the second handler
    prepends unconditionally and can duplicate an id. -/
theorem dedup_handler_no_duplicate_ids (incoming : Incident) (prev : List Incident)
    (h : (prev.map (fun i => i.id)).Nodup) :
    ((handleInsertDedup incoming prev).map (fun i => i.id)).Nodup := by
  unfold handleInsertDedup
  cases hf : prev.find? (fun item => item.id = incoming.id) with
  | some x =>
    rw [List.map_map]
    have hids : ((fun i => i.id)
        ∘ (fun item => if item.id = incoming.id then incoming else item))
        = fun i : Incident => i.id := by
      funext i
      by_cases hi : i.id = incoming.id <;> simp [hi]
    rw [hids]
    exact h
  | none =>
    simp only [List.map_cons, List.nodup_cons]
    refine ⟨?_, h⟩
    intro hmem
    rw [List.mem_map] at hmem
    obtain ⟨i, hi, hid⟩ := hmem
    have hnone := List.find?_eq_none.mp hf i hi
    simp [hid] at hnone

/-- Witness for the amended C7 handler theorem. -/
theorem dedup_handler_no_duplicate_ids_witness :
    ((handleInsertDedup exIncX2 [exIncX1]).map (fun i => i.id)).Nodup :=
  dedup_handler_no_duplicate_ids exIncX2 [exIncX1] (by decide)

/-- Invariant tying the trigger manager's `isSyncing` flag to the number of
    passes in flight. -/
def TriggerInv (st : TriggerState) : Prop :=
  st.inFlight = if st.isSyncing then 1 else 0

theorem triggerStep_inv (st : TriggerState) (ev : TriggerEvent) (h : TriggerInv st) :
    TriggerInv (triggerStep st ev) := by
  cases ev with
  | callSync onLine force =>
    cases onLine <;> cases force <;> cases hsync : st.isSyncing <;>
      simp_all [TriggerInv, triggerStep, syncCallAction]
  | passEnd =>
    cases hsync : st.isSyncing <;> simp_all [TriggerInv, triggerStep]

theorem runTrigger_inv (events : List TriggerEvent) : TriggerInv (runTrigger events) := by
  suffices h : ∀ st, TriggerInv st → TriggerInv (events.foldl triggerStep st) from
    h initialTriggerState (by simp [TriggerInv, initialTriggerState])
  induction events with
  | nil => exact fun st h => h
  | cons e rest ih => exact fun st h => ih (triggerStep st e) (triggerStep_inv st e h)

/-- C9: at most one sync pass is in flight at any time, and a `sync` call
    arriving while `isSyncing` is set starts no pass: it neither increments
    the started-pass count nor the in-flight count, and on the online path it
    is dropped outright (the state is unchanged — nothing is queued). -/
theorem single_sync_pass_in_flight :
    (∀ events, (runTrigger events).inFlight ≤ 1)
    ∧ ∀ st onLine force, st.isSyncing = true →
        (triggerStep st (TriggerEvent.callSync onLine force)).startedPasses
            = st.startedPasses
        ∧ (triggerStep st (TriggerEvent.callSync onLine force)).inFlight = st.inFlight
        ∧ (onLine = true → triggerStep st (TriggerEvent.callSync onLine force) = st) := by
  constructor
  · intro events
    have h := runTrigger_inv events
    unfold TriggerInv at h
    rw [h]
    cases (runTrigger events).isSyncing <;> simp
  · intro st onLine force hsync
    cases onLine <;> cases force <;>
      simp_all [triggerStep, syncCallAction]

/-- A trigger-manager state with one pass currently executing. -/
def exBusyTriggerState : TriggerState :=
  { isSyncing := true, inFlight := 1, startedPasses := 1, deferredRequests := 0 }

/-- Witness for C9 at a state with a pass executing. -/
theorem single_sync_pass_in_flight_witness :
    (triggerStep exBusyTriggerState (TriggerEvent.callSync true false)).startedPasses = 1
    ∧ triggerStep exBusyTriggerState (TriggerEvent.callSync true false)
        = exBusyTriggerState := by
  have h := single_sync_pass_in_flight.2 exBusyTriggerState true false rfl
  exact ⟨h.1, h.2.2 rfl⟩

/-- C10: every service-worker-initiated sync — the one-off background-sync
    event, the periodic-sync event, and the trigger-incident-sync message —
    invokes the sync engine with force = true, and a forced pass takes every
    unsynced report as due regardless of its nextRetryAt. -/
theorem service_worker_syncs_are_forced :
    (∀ tag inv, handleSyncEvent tag = some inv → inv.force = true)
    ∧ (∀ tag inv, handlePeriodicSyncEvent tag = some inv → inv.force = true)
    ∧ (∀ mtype src inv, handleMessageEvent mtype src = some inv → inv.force = true)
    ∧ ∀ pending now, dueIncidents pending now true = pending := by
  refine ⟨?_, ?_, ?_, ?_⟩
  · intro tag inv h
    unfold handleSyncEvent at h
    by_cases ht : tag = INCIDENT_SYNC_TAG
    · rw [if_pos ht] at h
      cases h
      rfl
    · rw [if_neg ht] at h
      cases h
  · intro tag inv h
    unfold handlePeriodicSyncEvent at h
    by_cases ht : tag = INCIDENT_PERIODIC_SYNC_TAG
    · rw [if_pos ht] at h
      cases h
      rfl
    · rw [if_neg ht] at h
      cases h
  · intro mtype src inv h
    unfold handleMessageEvent at h
    by_cases ht : mtype = "trigger-incident-sync"
    · rw [if_pos ht] at h
      cases h
      rfl
    · rw [if_neg ht] at h
      cases h
  · intro pending now
    unfold dueIncidents
    rw [List.filter_eq_self]
    intro r _
    simp [shouldSkipRetry]

/-- Witness for C10 on the background-sync tag. -/
theorem service_worker_syncs_are_forced_witness :
    (runIncidentSync "background-sync").force = true :=
  service_worker_syncs_are_forced.1 INCIDENT_SYNC_TAG
    (runIncidentSync "background-sync") (by simp [handleSyncEvent])

/-! ## processOne evaluation lemmas -/

theorem processOne_success_eq (incident : IncidentReport) (e : ReportEnv)
    (st : PassState) (u : Option String)
    (ha : attemptOutcome incident e = Except.ok u) :
    processOne incident e st =
      ({ store := updateById
            (updateById st.store incident.id (markPending e.attemptAt))
            incident.id (markSynced incident u e.attemptAt),
         events := st.events ++ [SyncProgressEvent.syncedEvent incident.id],
         completed := st.completed + 1,
         remoteCalls := st.remoteCalls + attemptRemoteCalls incident e }, none) := by
  unfold processOne
  rw [ha]

theorem processOne_failure_eq (incident : IncidentReport) (e : ReportEnv)
    (st : PassState) (msg : String)
    (ha : attemptOutcome incident e = Except.error (SyncError.generic msg)) :
    processOne incident e st =
      ({ store := updateById
            (updateById st.store incident.id (markPending e.attemptAt))
            incident.id (markFailed incident e),
         events := st.events ++ [SyncProgressEvent.errorEvent incident.id msg],
         completed := st.completed,
         remoteCalls := st.remoteCalls + attemptRemoteCalls incident e }, none) := by
  unfold processOne
  rw [ha]

theorem processOne_abort_eq (incident : IncidentReport) (e : ReportEnv)
    (st : PassState) (m : String)
    (ha : attemptOutcome incident e = Except.error (SyncError.abortError m)) :
    processOne incident e st =
      ({ store := updateById st.store incident.id (markPending e.attemptAt),
         events := st.events,
         completed := st.completed,
         remoteCalls := st.remoteCalls + attemptRemoteCalls incident e },
       some (SyncError.abortError m)) := by
  unfold processOne
  rw [ha]

theorem processLoop_singleton_of_none (signal : Nat → Bool) (env : Nat → ReportEnv)
    (incident : IncidentReport) (st : PassState) (h0 : signal 0 = false)
    (hstep : (processOne incident (env 0) st).2 = none) :
    processLoop signal env [incident] st = processOne incident (env 0) st := by
  rw [processLoop_cons_ok h0 hstep]
  show ((processOne incident (env 0) st).1, none) = processOne incident (env 0) st
  rw [← hstep]

/-- C2: when a due report's attempt has uploaded its inline photo to URL u
    and the remote insert fails with the duplicate-key code "23505", the
    iteration behaves exactly like a successful insert — the report row is
    marked synced with retryCount reset to 0, nextRetryAt cleared to null and
    the photo replaced by u, and a synced progress event is emitted — while
    an insert error with any other code makes the attempt fail. -/
theorem duplicate_key_treated_as_success
    (incident : IncidentReport) (st : PassState) (e : ReportEnv)
    (p u msg : String)
    (hp : incident.photo = some p) (hd : strStartsWith p "data:" = true)
    (hu : e.upload = UploadOutcome.ok (some u))
    (hi : e.insert = InsertOutcome.err "23505" msg) :
    processLoop (fun _ => false) (fun _ => e) [incident] st
        = processLoop (fun _ => false) (fun _ => { e with insert := InsertOutcome.ok })
            [incident] st
    ∧ processLoop (fun _ => false) (fun _ => e) [incident] st
        = ({ store := updateById
                (updateById st.store incident.id (markPending e.attemptAt))
                incident.id (markSynced incident (some u) e.attemptAt),
             events := st.events ++ [SyncProgressEvent.syncedEvent incident.id],
             completed := st.completed + 1,
             remoteCalls := st.remoteCalls + 2 }, none)
    ∧ (∀ r, (markSynced incident (some u) e.attemptAt r).status = ReportStatus.synced
        ∧ (markSynced incident (some u) e.attemptAt r).retryCount = some 0
        ∧ (markSynced incident (some u) e.attemptAt r).nextRetryAt = none
        ∧ (markSynced incident (some u) e.attemptAt r).photo = some u)
    ∧ ∀ code msg2, code ≠ "23505" →
        attemptOutcome incident { e with insert := InsertOutcome.err code msg2 }
          = Except.error (SyncError.generic msg2) := by
  have ha : attemptOutcome incident e = Except.ok (some u) := by
    unfold attemptOutcome uploadImageIfNeeded
    rw [hp, hu, hi]
    simp [hd]
  have ha2 : attemptOutcome incident { e with insert := InsertOutcome.ok }
      = Except.ok (some u) := by
    unfold attemptOutcome uploadImageIfNeeded
    simp only [hp, hd, if_true]
    rw [show ({ e with insert := InsertOutcome.ok } : ReportEnv).upload = e.upload from rfl,
      hu]
  have hcalls : attemptRemoteCalls incident e = 2 := by
    simp [attemptRemoteCalls, hp, hd, hu]
  have hloop1 : processLoop (fun _ => false) (fun _ => e) [incident] st
      = processOne incident e st :=
    processLoop_singleton_of_none _ _ _ _ rfl
      (by rw [processOne_success_eq incident e st (some u) ha])
  have hloop2 : processLoop (fun _ => false)
      (fun _ => { e with insert := InsertOutcome.ok }) [incident] st
      = processOne incident { e with insert := InsertOutcome.ok } st :=
    processLoop_singleton_of_none _ _ _ _ rfl
      (by rw [processOne_success_eq incident _ st (some u) ha2])
  refine ⟨?_, ?_, ?_, ?_⟩
  · rw [hloop1, hloop2, processOne_success_eq incident e st (some u) ha,
      processOne_success_eq incident _ st (some u) ha2]
    rfl
  · rw [hloop1, processOne_success_eq incident e st (some u) ha, hcalls]
  · intro r
    exact ⟨rfl, rfl, rfl, rfl⟩
  · intro code msg2 hcode
    unfold attemptOutcome uploadImageIfNeeded
    simp only [hp, hd, if_true]
    rw [show ({ e with insert := InsertOutcome.err code msg2 } : ReportEnv).upload
        = e.upload from rfl, hu]
    simp [hcode]

/-- A pending report carrying an inline data-URL photo. -/
def exPhotoReport : IncidentReport :=
  { id := "P1", rtype := "Flood", severity := 4,
    location := { latitude := 6, longitude := 80 }, timestamp := 50,
    photo := some "data:image/png;base64,AAA", status := ReportStatus.pending,
    createdAt := 50, retryCount := some 0, nextRetryAt := none, lastAttemptAt := none }

/-- An attempt environment whose insert fails with the duplicate-key code. -/
def exDupEnv : ReportEnv :=
  { attemptAt := 100, wallNow := 100,
    upload := UploadOutcome.ok (some "https://cdn.example/img.png"),
    insert := InsertOutcome.err "23505" "duplicate key value" }

/-- Initial pass state over a store holding only the photo report. -/
def exInitPass : PassState :=
  { store := [exPhotoReport], events := [], completed := 0, remoteCalls := 0 }

/-- Witness for C2 on a concrete duplicate-key run. -/
theorem duplicate_key_treated_as_success_witness :
    processLoop (fun _ => false) (fun _ => exDupEnv) [exPhotoReport] exInitPass
      = processLoop (fun _ => false)
          (fun _ => { exDupEnv with insert := InsertOutcome.ok })
          [exPhotoReport] exInitPass :=
  (duplicate_key_treated_as_success exPhotoReport exInitPass exDupEnv
    "data:image/png;base64,AAA" "https://cdn.example/img.png" "duplicate key value"
    rfl (by decide) rfl rfl).1

/-- C4 counterexample: with a store whose only unsynced report is failed with
    nextRetryAt = 1000 still in the future (due set empty at now = 0, force
    off), the call resolves with attempted = 0 — but the resolved object is
    `{ attempted: 0, totalPending: 1 }` with no `completed` property
    (modelled `completed = none`), so it does not carry the contract's
    three-field `{attempted, completed, totalPending}` shape. -/
theorem empty_due_result_omits_completed :
    (syncPendingIncidents [exFailedFuture] 0 false (fun _ => false)
        (fun _ => exDupEnv)).result
      = Except.ok { attempted := 0, completed := none, totalPending := 1 } := by
  rfl

/-- C4 (amended): when the due set is empty, `syncPendingIncidents` performs
    zero remote calls, mutates no report, emits no event, and resolves with
    attempted = 0 and the pending total — the `completed` field being absent
    on this early-return path. -/
theorem empty_due_returns_immediately (store : List IncidentReport) (now : Nat)
    (force : Bool) (signal : Nat → Bool) (env : Nat → ReportEnv)
    (h : dueIncidents (pendingIncidentsOf store) now force = []) :
    syncPendingIncidents store now force signal env
      = { store := store, events := [], remoteCalls := 0,
          result := Except.ok
            { attempted := 0, completed := none,
              totalPending := (pendingIncidentsOf store).length } } := by
  simp only [syncPendingIncidents]
  rw [h]
  simp

/-- Witness for the amended C4 theorem on the concrete empty-due store. -/
theorem empty_due_returns_immediately_witness :
    syncPendingIncidents [exFailedFuture] 0 false (fun _ => false) (fun _ => exDupEnv)
      = { store := [exFailedFuture], events := [], remoteCalls := 0,
          result := Except.ok
            { attempted := 0, completed := none, totalPending := 1 } } :=
  empty_due_returns_immediately [exFailedFuture] 0 false (fun _ => false)
    (fun _ => exDupEnv) (by decide)

/-! ## Positional lemmas for the pass -/

theorem getElem_not_mem_take {α : Type} (l : List α) (hnd : l.Nodup) (k j : Nat)
    (hj : j < l.length) (hkj : k ≤ j) :
    l.get ⟨j, hj⟩ ∉ l.take k := by
  intro hmem
  rw [List.mem_iff_getElem] at hmem
  obtain ⟨i, hi, hget⟩ := hmem
  have hik : i < k := Nat.lt_of_lt_of_le hi (List.length_take_le k l)
  have hil : i < l.length := Nat.lt_of_lt_of_le hi (List.length_take_le' k l)
  rw [List.getElem_take] at hget
  have heq : i = j := by
    have h2 : l[i] = l[j] := by simpa [List.get_eq_getElem] using hget
    exact (List.Nodup.getElem_inj_iff hnd).mp h2
  omega

theorem due_id_not_mem_take (due : List IncidentReport)
    (hnd : (due.map (fun r => r.id)).Nodup) (k j : Nat)
    (hj : j < due.length) (hkj : k ≤ j) :
    (due.get ⟨j, hj⟩).id ∉ (due.take k).map (fun r => r.id) := by
  intro hmem
  rw [List.map_take] at hmem
  have hj2 : j < (due.map (fun r => r.id)).length := by simpa using hj
  have hval : (due.map (fun r => r.id)).get ⟨j, hj2⟩ = (due.get ⟨j, hj⟩).id := by
    simp
  exact getElem_not_mem_take _ hnd k j hj2 hkj (by rw [hval]; exact hmem)

theorem due_sublist_store (store : List IncidentReport) (now : Nat) (force : Bool) :
    (dueIncidents (pendingIncidentsOf store) now force).Sublist store :=
  List.Sublist.trans (List.filter_sublist _) (List.filter_sublist _)

theorem due_ids_nodup (store : List IncidentReport) (now : Nat) (force : Bool)
    (h : (store.map (fun r => r.id)).Nodup) :
    ((dueIncidents (pendingIncidentsOf store) now force).map (fun r => r.id)).Nodup :=
  h.sublist ((due_sublist_store store now force).map (fun r => r.id))

/-- If the abort signal is first observed set before report number k, the loop
    runs exactly as it does on the first k reports and then rejects with the
    AbortError, leaving the state reached after those k reports. -/
theorem processLoop_abort_at (due : List IncidentReport) (signal : Nat → Bool)
    (env : Nat → ReportEnv) (st : PassState) (k : Nat)
    (hk : k < due.length)
    (hbefore : ∀ i, i < k → signal i = false)
    (hnoAbort : ∀ i, i < k → ∀ m, (env i).upload ≠ UploadOutcome.abortErr m)
    (hat : signal k = true) :
    processLoop signal env due st
      = ((processLoop signal env (due.take k) st).1,
         some (SyncError.abortError "Sync aborted")) := by
  have htk : (due.take k).length = k := by
    rw [List.length_take]
    omega
  have hfirstNone : (processLoop signal env (due.take k) st).2 = none :=
    processLoop_no_abort _ _ _ _ (fun i hi => hbefore i (by omega))
      (fun i hi => hnoAbort i (by omega))
  have hsplit := processLoop_append (due.take k) (due.drop k) signal env st
  rw [List.take_append_drop, hfirstNone] at hsplit
  simp only at hsplit
  have hdropCons : due.drop k = due.get ⟨k, hk⟩ :: due.drop (k + 1) := by
    rw [List.drop_eq_getElem_cons hk]
    simp [List.get_eq_getElem]
  rw [hdropCons] at hsplit
  have hsig0 : shiftFun (due.take k).length signal 0 = true := by
    rw [htk]
    simpa [shiftFun] using hat
  rw [processLoop_cons_abort hsig0] at hsplit
  exact hsplit

theorem getElem_not_mem_drop {α : Type} (l : List α) (hnd : l.Nodup) (j : Nat)
    (hj : j < l.length) :
    l.get ⟨j, hj⟩ ∉ l.drop (j + 1) := by
  intro hmem
  rw [List.mem_iff_getElem] at hmem
  obtain ⟨i, hi, hget⟩ := hmem
  rw [List.length_drop] at hi
  have hjl : j + 1 + i < l.length := by omega
  rw [List.getElem_drop] at hget
  have heq : j + 1 + i = j :=
    (List.Nodup.getElem_inj_iff hnd).mp (by simpa [List.get_eq_getElem] using hget)
  omega

theorem due_id_not_mem_drop (due : List IncidentReport)
    (hnd : (due.map (fun r => r.id)).Nodup) (j : Nat) (hj : j < due.length) :
    (due.get ⟨j, hj⟩).id ∉ (due.drop (j + 1)).map (fun r => r.id) := by
  intro hmem
  rw [List.map_drop] at hmem
  have hj2 : j < (due.map (fun r => r.id)).length := by simpa using hj
  have hval : (due.map (fun r => r.id)).get ⟨j, hj2⟩ = (due.get ⟨j, hj⟩).id := by
    simp
  exact getElem_not_mem_drop _ hnd j hj2 (by rw [hval]; exact hmem)

/-- The pass state a sync run starts from. -/
def initPass (store : List IncidentReport) : PassState :=
  { store := store, events := [], completed := 0, remoteCalls := 0 }

/-- Shape of a run whose due set is nonempty. -/
theorem syncPendingIncidents_run (store : List IncidentReport) (now : Nat)
    (force : Bool) (signal : Nat → Bool) (env : Nat → ReportEnv)
    (hne : ¬ (dueIncidents (pendingIncidentsOf store) now force).length = 0) :
    syncPendingIncidents store now force signal env
      = { store := (processLoop signal env
            (dueIncidents (pendingIncidentsOf store) now force) (initPass store)).1.store,
          events := (processLoop signal env
            (dueIncidents (pendingIncidentsOf store) now force) (initPass store)).1.events,
          remoteCalls := (processLoop signal env
            (dueIncidents (pendingIncidentsOf store) now force) (initPass store)).1.remoteCalls,
          result :=
            match (processLoop signal env
                (dueIncidents (pendingIncidentsOf store) now force) (initPass store)).2 with
            | some e => Except.error e
            | none => Except.ok
                { attempted := (dueIncidents (pendingIncidentsOf store) now force).length,
                  completed := some (processLoop signal env
                    (dueIncidents (pendingIncidentsOf store) now force) (initPass store)).1.completed,
                  totalPending := (pendingIncidentsOf store).length } } := by
  simp only [syncPendingIncidents]
  rw [if_neg hne]
  rfl

/-- C5: if the cancellation signal is set before report number k of the due
    list is processed (the earlier attempts running to completion), the call
    rejects with the AbortError DOMException — distinguishable from a generic
    error — the first k reports are left in whatever state their own attempts
    reached, and report k and every later due report are not mutated at all. -/
theorem abort_signal_before_report_k
    (store : List IncidentReport) (now : Nat) (force : Bool)
    (signal : Nat → Bool) (env : Nat → ReportEnv) (k : Nat)
    (hnodup : (store.map (fun r => r.id)).Nodup)
    (hk : k < (dueIncidents (pendingIncidentsOf store) now force).length)
    (hbefore : ∀ i, i < k → signal i = false)
    (hnoAbort : ∀ i, i < k → ∀ m, (env i).upload ≠ UploadOutcome.abortErr m)
    (hat : signal k = true) :
    (syncPendingIncidents store now force signal env).result
        = Except.error (SyncError.abortError "Sync aborted")
    ∧ (syncPendingIncidents store now force signal env).store
        = (processLoop signal env
            ((dueIncidents (pendingIncidentsOf store) now force).take k)
            (initPass store)).1.store
    ∧ ∀ j (hj : j < (dueIncidents (pendingIncidentsOf store) now force).length),
        k ≤ j →
        findById (syncPendingIncidents store now force signal env).store
            ((dueIncidents (pendingIncidentsOf store) now force).get ⟨j, hj⟩).id
          = findById store
              ((dueIncidents (pendingIncidentsOf store) now force).get ⟨j, hj⟩).id := by
  have hrun := syncPendingIncidents_run store now force signal env (by omega)
  have habort := processLoop_abort_at
    (dueIncidents (pendingIncidentsOf store) now force) signal env (initPass store)
    k hk hbefore hnoAbort hat
  rw [habort] at hrun
  simp only at hrun
  refine ⟨?_, ?_, ?_⟩
  · rw [hrun]
  · rw [hrun]
  · intro j hj hkj
    rw [hrun]
    exact processLoop_frame _ signal env (initPass store) _
      (due_id_not_mem_take _ (due_ids_nodup store now force hnodup) k j hj hkj)

/-- A never-attempted local report with id "A". -/
def exA : IncidentReport :=
  { id := "A", rtype := "Flood", severity := 1,
    location := { latitude := 0, longitude := 0 }, timestamp := 30, photo := none,
    status := ReportStatus.localStatus, createdAt := 30, retryCount := none,
    nextRetryAt := none, lastAttemptAt := none }

/-- A never-attempted local report with id "B". -/
def exB : IncidentReport :=
  { id := "B", rtype := "Landslide", severity := 2,
    location := { latitude := 1, longitude := 1 }, timestamp := 40, photo := none,
    status := ReportStatus.localStatus, createdAt := 40, retryCount := none,
    nextRetryAt := none, lastAttemptAt := none }

/-- An attempt environment with no photo upload and a successful insert. -/
def exOkEnv : ReportEnv :=
  { attemptAt := 10, wallNow := 10, upload := UploadOutcome.ok none,
    insert := InsertOutcome.ok }

/-- Witness for C5: store [A, B], signal set from report number 1 onwards. -/
theorem abort_signal_before_report_k_witness :
    (syncPendingIncidents [exA, exB] 0 false (fun i => decide (1 ≤ i))
        (fun _ => exOkEnv)).result
      = Except.error (SyncError.abortError "Sync aborted")
    ∧ (syncPendingIncidents [exA, exB] 0 false (fun i => decide (1 ≤ i))
        (fun _ => exOkEnv)).store
      = (processLoop (fun i => decide (1 ≤ i)) (fun _ => exOkEnv)
          ((dueIncidents (pendingIncidentsOf [exA, exB]) 0 false).take 1)
          (initPass [exA, exB])).1.store
    ∧ ∀ j (hj : j < (dueIncidents (pendingIncidentsOf [exA, exB]) 0 false).length),
        1 ≤ j →
        findById (syncPendingIncidents [exA, exB] 0 false (fun i => decide (1 ≤ i))
            (fun _ => exOkEnv)).store
            ((dueIncidents (pendingIncidentsOf [exA, exB]) 0 false).get ⟨j, hj⟩).id
          = findById [exA, exB]
              ((dueIncidents (pendingIncidentsOf [exA, exB]) 0 false).get ⟨j, hj⟩).id :=
  abort_signal_before_report_k [exA, exB] 0 false (fun i => decide (1 ≤ i))
    (fun _ => exOkEnv) 1 (by decide) (by decide)
    (fun i hi => by simp; omega)
    (fun i _ m h => by simp [exOkEnv] at h)
    (by decide)

/-- C6: when the attempt for due report number j raises a non-cancellation
    error, the pass sets that report's status to failed, increments its
    retryCount by exactly 1, recomputes nextRetryAt from the new retryCount
    via the backoff policy, emits an error progress event for it, and still
    processes the whole batch, resolving with attempted equal to the size of
    the due set. -/
theorem failed_attempt_marks_and_continues
    (store : List IncidentReport) (now : Nat) (force : Bool)
    (signal : Nat → Bool) (env : Nat → ReportEnv) (j : Nat) (msg : String)
    (hnodup : (store.map (fun r => r.id)).Nodup)
    (hsig : ∀ i, signal i = false)
    (hnoAbort : ∀ i m, (env i).upload ≠ UploadOutcome.abortErr m)
    (hj : j < (dueIncidents (pendingIncidentsOf store) now force).length)
    (hfail : attemptOutcome
        ((dueIncidents (pendingIncidentsOf store) now force).get ⟨j, hj⟩) (env j)
      = Except.error (SyncError.generic msg)) :
    (∃ c, (syncPendingIncidents store now force signal env).result
        = Except.ok
            { attempted := (dueIncidents (pendingIncidentsOf store) now force).length,
              completed := some c,
              totalPending := (pendingIncidentsOf store).length })
    ∧ findById (syncPendingIncidents store now force signal env).store
          ((dueIncidents (pendingIncidentsOf store) now force).get ⟨j, hj⟩).id
        = some (markFailed ((dueIncidents (pendingIncidentsOf store) now force).get ⟨j, hj⟩)
            (env j) (markPending (env j).attemptAt
              ((dueIncidents (pendingIncidentsOf store) now force).get ⟨j, hj⟩)))
    ∧ SyncProgressEvent.errorEvent
          ((dueIncidents (pendingIncidentsOf store) now force).get ⟨j, hj⟩).id msg
        ∈ (syncPendingIncidents store now force signal env).events
    ∧ ∀ r, (markFailed ((dueIncidents (pendingIncidentsOf store) now force).get ⟨j, hj⟩)
          (env j) r).status = ReportStatus.failed
        ∧ (markFailed ((dueIncidents (pendingIncidentsOf store) now force).get ⟨j, hj⟩)
            (env j) r).retryCount
          = some (((dueIncidents (pendingIncidentsOf store) now force).get
              ⟨j, hj⟩).retryCount.getD 0 + 1)
        ∧ (markFailed ((dueIncidents (pendingIncidentsOf store) now force).get ⟨j, hj⟩)
            (env j) r).nextRetryAt
          = some (computeNextRetryAt (env j).wallNow
              (((dueIncidents (pendingIncidentsOf store) now force).get
                ⟨j, hj⟩).retryCount.getD 0 + 1)) := by
  have hrun := syncPendingIncidents_run store now force signal env (by omega)
  have hW2 : (processLoop signal env (dueIncidents (pendingIncidentsOf store) now force)
      (initPass store)).2 = none :=
    processLoop_no_abort _ _ _ _ (fun i _ => hsig i) (fun i _ => hnoAbort i)
  have hdueNodup := due_ids_nodup store now force hnodup
  have htj : ((dueIncidents (pendingIncidentsOf store) now force).take j).length = j := by
    rw [List.length_take]
    omega
  have hfirst2 : (processLoop signal env
      ((dueIncidents (pendingIncidentsOf store) now force).take j) (initPass store)).2
      = none :=
    processLoop_no_abort _ _ _ _ (fun i _ => hsig i) (fun i _ => hnoAbort i)
  have hsplit := processLoop_append
    ((dueIncidents (pendingIncidentsOf store) now force).take j)
    ((dueIncidents (pendingIncidentsOf store) now force).drop j) signal env
    (initPass store)
  rw [List.take_append_drop, hfirst2] at hsplit
  simp only at hsplit
  have hdropCons : (dueIncidents (pendingIncidentsOf store) now force).drop j
      = (dueIncidents (pendingIncidentsOf store) now force).get ⟨j, hj⟩
        :: (dueIncidents (pendingIncidentsOf store) now force).drop (j + 1) := by
    rw [List.drop_eq_getElem_cons hj]
    simp [List.get_eq_getElem]
  rw [hdropCons] at hsplit
  have hsg : shiftFun ((dueIncidents (pendingIncidentsOf store) now force).take j).length
      signal 0 = false := hsig _
  have henv0 : shiftFun
      ((dueIncidents (pendingIncidentsOf store) now force).take j).length env 0
      = env j := by
    simp [shiftFun, htj]
  have hstep := processOne_failure_eq
    ((dueIncidents (pendingIncidentsOf store) now force).get ⟨j, hj⟩) (env j)
    (processLoop signal env
      ((dueIncidents (pendingIncidentsOf store) now force).take j) (initPass store)).1
    msg hfail
  have hstepNone : (processOne
      ((dueIncidents (pendingIncidentsOf store) now force).get ⟨j, hj⟩)
      (shiftFun ((dueIncidents (pendingIncidentsOf store) now force).take j).length env 0)
      (processLoop signal env
        ((dueIncidents (pendingIncidentsOf store) now force).take j)
        (initPass store)).1).2 = none := by
    rw [henv0, hstep]
  rw [processLoop_cons_ok hsg hstepNone] at hsplit
  have hframe1 : findById (processLoop signal env
      ((dueIncidents (pendingIncidentsOf store) now force).take j)
      (initPass store)).1.store
      ((dueIncidents (pendingIncidentsOf store) now force).get ⟨j, hj⟩).id
      = findById store
        ((dueIncidents (pendingIncidentsOf store) now force).get ⟨j, hj⟩).id :=
    processLoop_frame _ signal env (initPass store) _
      (due_id_not_mem_take _ hdueNodup j j hj (Nat.le_refl j))
  have hmem : (dueIncidents (pendingIncidentsOf store) now force).get ⟨j, hj⟩ ∈ store :=
    (due_sublist_store store now force).subset (List.get_mem _ _ hj)
  have hcur : findById (processLoop signal env
      ((dueIncidents (pendingIncidentsOf store) now force).take j)
      (initPass store)).1.store
      ((dueIncidents (pendingIncidentsOf store) now force).get ⟨j, hj⟩).id
      = some ((dueIncidents (pendingIncidentsOf store) now force).get ⟨j, hj⟩) :=
    hframe1.trans (findById_eq_of_mem_nodup store hnodup _ hmem)
  have h1 := findById_updateById_self _ _ _
    (fun r => markPending_id (env j).attemptAt r) _ hcur
  have h2 := findById_updateById_self _ _ _
    (fun r => markFailed_id ((dueIncidents (pendingIncidentsOf store) now force).get
      ⟨j, hj⟩) (env j) r) _ h1
  have hWstore : findById (processLoop signal env
      (dueIncidents (pendingIncidentsOf store) now force) (initPass store)).1.store
      ((dueIncidents (pendingIncidentsOf store) now force).get ⟨j, hj⟩).id
      = some (markFailed ((dueIncidents (pendingIncidentsOf store) now force).get ⟨j, hj⟩)
          (env j) (markPending (env j).attemptAt
            ((dueIncidents (pendingIncidentsOf store) now force).get ⟨j, hj⟩))) := by
    rw [hsplit]
    rw [processLoop_frame _ _ _ _ _ (due_id_not_mem_drop _ hdueNodup j hj)]
    rw [henv0, hstep]
    exact h2
  have hWevents : SyncProgressEvent.errorEvent
      ((dueIncidents (pendingIncidentsOf store) now force).get ⟨j, hj⟩).id msg
      ∈ (processLoop signal env (dueIncidents (pendingIncidentsOf store) now force)
          (initPass store)).1.events := by
    rw [hsplit]
    obtain ⟨tail, ht⟩ := processLoop_events
      ((dueIncidents (pendingIncidentsOf store) now force).drop (j + 1))
      (shiftFun 1 (shiftFun ((dueIncidents (pendingIncidentsOf store) now force).take
        j).length signal))
      (shiftFun 1 (shiftFun ((dueIncidents (pendingIncidentsOf store) now force).take
        j).length env))
      (processOne ((dueIncidents (pendingIncidentsOf store) now force).get ⟨j, hj⟩)
        (shiftFun ((dueIncidents (pendingIncidentsOf store) now force).take j).length
          env 0)
        (processLoop signal env
          ((dueIncidents (pendingIncidentsOf store) now force).take j)
          (initPass store)).1).1
    rw [ht]
    rw [henv0, hstep]
    simp
  refine ⟨?_, ?_, ?_, ?_⟩
  · refine ⟨(processLoop signal env (dueIncidents (pendingIncidentsOf store) now force)
      (initPass store)).1.completed, ?_⟩
    rw [hrun]
    simp only [hW2]
  · rw [hrun]
    exact hWstore
  · rw [hrun]
    exact hWevents
  · intro r
    exact ⟨rfl, rfl, rfl⟩

/-- An attempt environment whose insert fails with a non-duplicate code. -/
def exFailEnv : ReportEnv :=
  { attemptAt := 10, wallNow := 10, upload := UploadOutcome.ok none,
    insert := InsertOutcome.err "500" "boom" }

/-- Per-report environment: report 0 fails, the rest succeed. -/
def exMixedEnv : Nat → ReportEnv := fun i => if i = 0 then exFailEnv else exOkEnv

/-- Witness for C6: in a two-report batch whose first attempt fails, the pass
    still attempts both reports and the first row ends failed with the
    backoff bookkeeping applied. -/
theorem failed_attempt_marks_and_continues_witness :
    (∃ c, (syncPendingIncidents [exA, exB] 0 false (fun _ => false) exMixedEnv).result
        = Except.ok { attempted := 2, completed := some c, totalPending := 2 })
    ∧ findById (syncPendingIncidents [exA, exB] 0 false (fun _ => false)
          exMixedEnv).store "A"
        = some (markFailed exA (exMixedEnv 0)
            (markPending (exMixedEnv 0).attemptAt exA)) := by
  have h := failed_attempt_marks_and_continues [exA, exB] 0 false (fun _ => false)
    exMixedEnv 0 "boom" (by decide) (fun i => rfl)
    (fun i m hcon => by
      by_cases h0 : i = 0 <;> simp [exMixedEnv, h0, exFailEnv, exOkEnv] at hcon)
    (by decide) rfl
  exact ⟨h.1, h.2.1⟩

end IncidentApp
